import Mathlib

/-!
Orbo servo controller: shallow embedding of `src/Orbo.cpp`.

The class `Orbo` owns four servos (`ll`, `lf`, `rl`, `rf`) and five private
fields.  Every member function is embedded as a function `Orbo → Orbo` on a
record that holds the five fields together with `trace`, the list of commands
issued so far to the external collaborators (`Servo::attach`, `Servo::write`
and the blocking `delay`), oldest first.  Statements are sequenced exactly in
source order.

C++ `int` is embedded as `Int`; `/` on `int` is `Int.tdiv` (truncation toward
zero).  `balanceLeft` and `balanceRight` compute on the caller's `degree`, which
may be any `int`: there every `int` operation is followed by `wrapInt`, the
reduction to the 32-bit two's complement range, so a product or sum that
leaves the range wraps around as it does on the machine.  The other member
functions combine the stored fields with the constant 90 and with a loop
counter; they are kept on the integers.
-/

/-- The four servo members of the class, `Servo ll, lf, rl, rf`. -/
inductive Servo where
  | ll
  | lf
  | rl
  | rf
  deriving DecidableEq, Repr

/-- One call into the external servo driver or the timing primitive. -/
inductive Cmd where
  | attach (s : Servo) (pin : Int) (pulse : Option (Int × Int))
  | write (s : Servo) (angle : Int)
  | delay (ms : Int)
  deriving DecidableEq, Repr

/-- The private fields of `class Orbo`, and the commands issued so far. -/
structure Orbo where
  _isWalkMode : Bool
  _rotSpeed : Int
  _leftLegPos : Int
  _rightLegPos : Int
  _returnHomeDelay : Int
  trace : List Cmd
  deriving DecidableEq, Repr

/-- Modelled from the spec: `abs` comes from `Arduino.h`, which is not part of
the sources; the spec reads `abs(leftLegPos-90)` as the absolute value. The
Arduino definition is `((x)>0?(x):-(x))`. -/
def Orbo.abs (x : Int) : Int := if x > 0 then x else -x

/-- The value of an `int` operation whose exact result is `x`: 32-bit two's
complement, a result outside `-2147483648 .. 2147483647` wraps around. -/
def wrapInt (x : Int) : Int :=
  (x + 2147483648) % 4294967296 - 2147483648

/-- `s.attach(pin)` and `s.attach(pin, min, max)`. -/
def Orbo.attach (s : Servo) (pin : Int) (pulse : Option (Int × Int)) (o : Orbo) : Orbo :=
  { o with trace := o.trace ++ [Cmd.attach s pin pulse] }

/-- `s.write(angle)`. -/
def Orbo.write (s : Servo) (angle : Int) (o : Orbo) : Orbo :=
  { o with trace := o.trace ++ [Cmd.write s angle] }

/-- `delay(ms)`. -/
def Orbo.delay (ms : Int) (o : Orbo) : Orbo :=
  { o with trace := o.trace ++ [Cmd.delay ms] }

def Orbo.setIsWalkMode (isWalkMode : Bool) (o : Orbo) : Orbo :=
  { o with _isWalkMode := isWalkMode }

def Orbo.getIsWalkMode (o : Orbo) : Bool := o._isWalkMode

def Orbo.setRotSpeed (rotSpeed : Int) (o : Orbo) : Orbo :=
  { o with _rotSpeed := rotSpeed }

def Orbo.getRotSpeed (o : Orbo) : Int := o._rotSpeed

def Orbo.setLeftLegPos (leftLegPos : Int) (o : Orbo) : Orbo :=
  { o with _leftLegPos := leftLegPos }

def Orbo.getLeftLegPos (o : Orbo) : Int := o._leftLegPos

def Orbo.setRightLegPos (rightLegPos : Int) (o : Orbo) : Orbo :=
  { o with _rightLegPos := rightLegPos }

def Orbo.getRightLegPos (o : Orbo) : Int := o._rightLegPos

def Orbo.setReturnHomeDelay (returnHomeDelay : Int) (o : Orbo) : Orbo :=
  { o with _returnHomeDelay := returnHomeDelay }

def Orbo.getReturnHomeDelay (o : Orbo) : Int := o._returnHomeDelay

/-- `void Orbo::modeChange(bool desiredMode)`. -/
def Orbo.modeChange (desiredMode : Bool) (o : Orbo) : Orbo :=
  let o :=
    if desiredMode then
      let o := o.setIsWalkMode true
      let o := o.write Servo.ll 90
      o.write Servo.rl 90
    else
      let o := o.setIsWalkMode false
      let o := o.write Servo.ll 170
      o.write Servo.rl 10
  o.delay 200

/-- `void Orbo::balanceLeft(int degree)`. -/
def Orbo.balanceLeft (degree : Int) (o : Orbo) : Orbo :=
  let o := o.setLeftLegPos (wrapInt (90 + degree))
  let o := o.setLeftLegPos (wrapInt (90 + Int.tdiv (wrapInt (2 * degree)) 3))
  let o := o.modeChange true
  let o := o.write Servo.rl (wrapInt (90 + Int.tdiv (wrapInt (2 * degree)) 3))
  let o := o.delay 25
  o.write Servo.ll (wrapInt (90 + degree))

/-- `void Orbo::balanceRight(int degree)`. -/
def Orbo.balanceRight (degree : Int) (o : Orbo) : Orbo :=
  let o := o.setLeftLegPos (wrapInt (90 - Int.tdiv (wrapInt (2 * degree)) 3))
  let o := o.setRightLegPos (wrapInt (90 - degree))
  let o := o.modeChange true
  let o := o.write Servo.ll (wrapInt (90 - Int.tdiv (wrapInt (2 * degree)) 3))
  let o := o.delay 25
  o.write Servo.rl (wrapInt (90 - degree))

/-- The first loop of `returnHome`, entered at counter value `i`:
`for (...; i < abs(getLeftLegPos() - 90); i++) { rl.write(..); ll.write(..); delay(..); }`. -/
def Orbo.returnHomeLoopLeft (i : Int) (o : Orbo) : Orbo :=
  if i < Orbo.abs (o.getLeftLegPos - 90) then
    let o1 := o.write Servo.rl (o.getRightLegPos - Int.tdiv (i * 2) 3)
    let o2 := o1.write Servo.ll (o1.getLeftLegPos - i)
    let o3 := o2.delay o2._returnHomeDelay
    Orbo.returnHomeLoopLeft (i + 1) o3
  else o
termination_by (Orbo.abs (o.getLeftLegPos - 90) - i).toNat
decreasing_by
  simp only [Orbo.write, Orbo.delay, Orbo.getLeftLegPos] at *
  omega

/-- The second loop of `returnHome`, entered at counter value `i`:
`for (...; i < abs(getRightLegPos() - 90); i++) { rl.write(..); ll.write(..); delay(..); }`. -/
def Orbo.returnHomeLoopRight (i : Int) (o : Orbo) : Orbo :=
  if i < Orbo.abs (o.getRightLegPos - 90) then
    let o1 := o.write Servo.rl (o.getRightLegPos + i)
    let o2 := o1.write Servo.ll (o1.getLeftLegPos + Int.tdiv (i * 2) 3)
    let o3 := o2.delay o2._returnHomeDelay
    Orbo.returnHomeLoopRight (i + 1) o3
  else o
termination_by (Orbo.abs (o.getRightLegPos - 90) - i).toNat
decreasing_by
  simp only [Orbo.write, Orbo.delay, Orbo.getRightLegPos] at *
  omega

/-- `void Orbo::returnHome()`. -/
def Orbo.returnHome (o : Orbo) : Orbo :=
  let o :=
    if o.getLeftLegPos > 90 then
      o.returnHomeLoopLeft 0
    else
      o.returnHomeLoopRight 0
  let o := o.setLeftLegPos 90
  o.setRightLegPos 90

/-- `void Orbo::rotateFoot(Servo & foot, bool clockwise)`. -/
def Orbo.rotateFootBool (foot : Servo) (clockwise : Bool) (o : Orbo) : Orbo :=
  if clockwise then o.write foot (90 - o.getRotSpeed) else o.write foot (90 + o.getRotSpeed)

/-- `void Orbo::rotateFoot(Servo & foot, char dir)`. -/
def Orbo.rotateFootChar (foot : Servo) (dir : Char) (o : Orbo) : Orbo :=
  if dir = 'C' then
    o.write foot (90 - o.getRotSpeed)
  else if dir = 'A' then
    o.write foot (90 + o.getRotSpeed)
  else
    o.write foot 90

/-- `void Orbo::stopFoot(Servo & foot)`. -/
def Orbo.stopFootServo (foot : Servo) (o : Orbo) : Orbo :=
  o.write foot 90

/-- `void Orbo::stopFoot()`. -/
def Orbo.stopFoot (o : Orbo) : Orbo :=
  let o := o.write Servo.lf 90
  o.write Servo.rf 90

/-- `void Orbo::drive(char dir)`. -/
def Orbo.drive (dir : Char) (o : Orbo) : Orbo :=
  let o := o.modeChange false
  if dir = 'F' then
    let o := o.write Servo.lf (90 + o.getRotSpeed)
    o.write Servo.rf (90 - o.getRotSpeed)
  else if dir = 'B' then
    let o := o.write Servo.lf (90 - o.getRotSpeed)
    o.write Servo.rf (90 + o.getRotSpeed)
  else if dir = 'L' then
    let o := o.write Servo.lf 90
    o.write Servo.rf (90 - o.getRotSpeed)
  else if dir = 'R' then
    let o := o.write Servo.lf (90 + o.getRotSpeed)
    o.write Servo.rf 90
  else
    let o := o.write Servo.lf 90
    o.write Servo.rf 90

/-- The object before the constructor body runs: no command issued yet. The
field values are placeholders, each is assigned by the constructor before any
read. -/
def Orbo.unconstructed : Orbo :=
  { _isWalkMode := false, _rotSpeed := 0, _leftLegPos := 0, _rightLegPos := 0,
    _returnHomeDelay := 0, trace := [] }

set_option linter.dupNamespace false

/-- `Orbo::Orbo(int leftLegPin, int leftFootPin, int rightLegPin, int rightFootPin)`. -/
def Orbo.Orbo (leftLegPin leftFootPin rightLegPin rightFootPin : Int) : Orbo :=
  let o := Orbo.unconstructed
  let o := Orbo.attach Servo.ll leftLegPin (some (120, 2400)) o
  let o := Orbo.attach Servo.lf leftFootPin none o
  let o := Orbo.attach Servo.rl rightLegPin (some (120, 2400)) o
  let o := Orbo.attach Servo.rf rightFootPin none o
  let o := Orbo.write Servo.ll 90 o
  let o := Orbo.write Servo.lf 90 o
  let o := Orbo.write Servo.rl 90 o
  let o := Orbo.write Servo.rf 90 o
  let o := Orbo.setIsWalkMode true o
  let o := Orbo.setLeftLegPos 90 o
  let o := Orbo.setRightLegPos 90 o
  let o := Orbo.setRotSpeed 25 o
  Orbo.setReturnHomeDelay 3 o

/-! ## Vocabulary of the specification -/

/-- The last angle written to servo `s` in a trace, if there is one. -/
def lastWrite (s : Servo) (t : List Cmd) : Option Int :=
  t.foldl (fun acc c =>
    match c with
    | Cmd.write s1 a => if s1 = s then some a else acc
    | _ => acc) none

/-- The cached leg angles agree with the last angles written to the leg servos. -/
def legsInSync (o : Orbo) : Prop :=
  lastWrite Servo.ll o.trace = some o._leftLegPos ∧
  lastWrite Servo.rl o.trace = some o._rightLegPos

instance (o : Orbo) : Decidable (legsInSync o) :=
  inferInstanceAs (Decidable (_ ∧ _))

/-- The two foot servos, as arguments of `rotateFoot` and `stopFoot`. -/
inductive Foot where
  | lf
  | rf
  deriving DecidableEq, Repr

/-- The servo member a foot stands for. -/
def Foot.servo : Foot → Servo
  | Foot.lf => Servo.lf
  | Foot.rf => Servo.rf

/-- One call of a motion operation of the public interface (raw setters excluded). -/
inductive Op where
  | balanceLeft (degree : Int)
  | balanceRight (degree : Int)
  | returnHome
  | modeChange (desiredMode : Bool)
  | drive (dir : Char)
  | rotateFootBool (foot : Foot) (clockwise : Bool)
  | rotateFootChar (foot : Foot) (dir : Char)
  | stopFootServo (foot : Foot)
  | stopFoot
  deriving DecidableEq, Repr

/-- The effect of one call. -/
def Op.apply : Op → Orbo → Orbo
  | Op.balanceLeft degree, o => o.balanceLeft degree
  | Op.balanceRight degree, o => o.balanceRight degree
  | Op.returnHome, o => o.returnHome
  | Op.modeChange desiredMode, o => o.modeChange desiredMode
  | Op.drive dir, o => o.drive dir
  | Op.rotateFootBool foot clockwise, o => o.rotateFootBool foot.servo clockwise
  | Op.rotateFootChar foot dir, o => o.rotateFootChar foot.servo dir
  | Op.stopFootServo foot, o => o.stopFootServo foot.servo
  | Op.stopFoot, o => o.stopFoot

/-- The effect of a finite sequence of calls, first call first. -/
def runOps (ops : List Op) (o : Orbo) : Orbo :=
  ops.foldl (fun o op => op.apply o) o

/-- The operations that write a leg servo or a cached leg angle. -/
def Op.touchesLegs : Op → Bool
  | Op.balanceLeft _ => true
  | Op.balanceRight _ => true
  | Op.returnHome => true
  | Op.modeChange _ => true
  | Op.drive _ => true
  | _ => false

/-- The last leg-touching call of a sequence, if there is one. -/
def lastLegOp (ops : List Op) : Option Op :=
  ops.foldl (fun acc op => if op.touchesLegs then some op else acc) none

/-- Step `i` of the first loop of `returnHome`, as the specification words it. -/
def stepLeftDisplaced (o : Orbo) (i : Nat) : List Cmd :=
  [Cmd.write Servo.rl (o._rightLegPos - Int.tdiv (2 * (i : Int)) 3),
   Cmd.write Servo.ll (o._leftLegPos - (i : Int)),
   Cmd.delay o._returnHomeDelay]

/-- Step `i` of the second loop of `returnHome`, as the specification words it. -/
def stepRightDisplaced (o : Orbo) (i : Nat) : List Cmd :=
  [Cmd.write Servo.rl (o._rightLegPos + (i : Int)),
   Cmd.write Servo.ll (o._leftLegPos + Int.tdiv (2 * (i : Int)) 3),
   Cmd.delay o._returnHomeDelay]

/-- The commands a call appended, given the states before and after it. -/
def emitted (before after : Orbo) : List Cmd :=
  after.trace.drop before.trace.length

/-- The number of `delay` commands in a list of commands. -/
def delayCount (t : List Cmd) : Nat :=
  t.countP (fun c =>
    match c with
    | Cmd.delay _ => true
    | _ => false)

/-- The number of steps `returnHome` performs from state `o`: every iteration of
either loop issues exactly one `delay`, and nothing else in `returnHome` does. -/
def returnHomeSteps (o : Orbo) : Nat :=
  delayCount (emitted o o.returnHome)

/-- The angles written to servo `s` in a list of commands, in order. -/
def writesTo (s : Servo) (t : List Cmd) : List Int :=
  t.filterMap (fun c =>
    match c with
    | Cmd.write s1 a => if s1 = s then some a else none
    | _ => none)

/-- Every angle of the list is at least as close to 90 as the one before it. -/
def towardNeutral : List Int → Bool
  | a :: b :: rest =>
    decide ((b - 90).natAbs ≤ (a - 90).natAbs) && towardNeutral (b :: rest)
  | _ => true

/-- For servo `s`: the angles `returnHome` writes to it from state `o`, each
compared with the angle commanded to `s` just before (first the last write to
`s` before the call), never move away from 90. -/
def returnHomeTowardNeutral (s : Servo) (o : Orbo) : Bool :=
  towardNeutral ((lastWrite s o.trace).toList ++ writesTo s (emitted o o.returnHome))

/-! ## Balance operations -/

/-- Inside the 32-bit range `wrapInt` changes nothing. -/
theorem wrapInt_eq_self (x : Int) (hlo : -2147483648 ≤ x) (hhi : x ≤ 2147483647) :
    wrapInt x = x := by
  unfold wrapInt
  omega

/-- Three times the truncating quotient by 3 lies between the argument and zero. -/
theorem tdiv_three_between (a : Int) :
    (0 ≤ a → 0 ≤ Int.tdiv a 3 ∧ 3 * Int.tdiv a 3 ≤ a)
    ∧ (a ≤ 0 → a ≤ 3 * Int.tdiv a 3 ∧ Int.tdiv a 3 ≤ 0) := by
  constructor
  · intro h
    rw [Int.tdiv_eq_ediv h (by omega)]
    omega
  · intro h
    have h1 : Int.tdiv a 3 = -Int.tdiv (-a) 3 := by
      rw [Int.neg_tdiv, neg_neg]
    rw [h1, Int.tdiv_eq_ediv (by omega) (by omega)]
    omega

/-- For a degree whose double fits the 32-bit range, the four angle
expressions of the balance operations are computed without wrap-around. -/
theorem balance_angles_exact (degree : Int)
    (hlo : -1073741824 ≤ degree) (hhi : degree ≤ 1073741823) :
    wrapInt (90 + Int.tdiv (wrapInt (2 * degree)) 3) = 90 + Int.tdiv (2 * degree) 3
    ∧ wrapInt (90 + degree) = 90 + degree
    ∧ wrapInt (90 - Int.tdiv (wrapInt (2 * degree)) 3) = 90 - Int.tdiv (2 * degree) 3
    ∧ wrapInt (90 - degree) = 90 - degree := by
  have h2 : wrapInt (2 * degree) = 2 * degree := wrapInt_eq_self _ (by omega) (by omega)
  rw [h2]
  rcases le_total 0 (2 * degree) with h | h
  · have hb := (tdiv_three_between (2 * degree)).1 h
    refine ⟨?_, ?_, ?_, ?_⟩ <;> apply wrapInt_eq_self <;> omega
  · have hb := (tdiv_three_between (2 * degree)).2 h
    refine ⟨?_, ?_, ?_, ?_⟩ <;> apply wrapInt_eq_self <;> omega

/-- The state `balanceLeft` returns, angle expressions as the machine computes them. -/
theorem balanceLeft_eq (degree : Int) (o : Orbo) :
    o.balanceLeft degree = { o with
      _isWalkMode := true
      _leftLegPos := wrapInt (90 + Int.tdiv (wrapInt (2 * degree)) 3)
      trace := o.trace ++
        [Cmd.write Servo.ll 90, Cmd.write Servo.rl 90, Cmd.delay 200,
         Cmd.write Servo.rl (wrapInt (90 + Int.tdiv (wrapInt (2 * degree)) 3)), Cmd.delay 25,
         Cmd.write Servo.ll (wrapInt (90 + degree))] } := by
  simp [Orbo.balanceLeft, Orbo.modeChange, Orbo.write, Orbo.delay, Orbo.setLeftLegPos,
    Orbo.setIsWalkMode]

/-- The state `balanceRight` returns, angle expressions as the machine computes them. -/
theorem balanceRight_eq (degree : Int) (o : Orbo) :
    o.balanceRight degree = { o with
      _isWalkMode := true
      _leftLegPos := wrapInt (90 - Int.tdiv (wrapInt (2 * degree)) 3)
      _rightLegPos := wrapInt (90 - degree)
      trace := o.trace ++
        [Cmd.write Servo.ll 90, Cmd.write Servo.rl 90, Cmd.delay 200,
         Cmd.write Servo.ll (wrapInt (90 - Int.tdiv (wrapInt (2 * degree)) 3)), Cmd.delay 25,
         Cmd.write Servo.rl (wrapInt (90 - degree))] } := by
  simp [Orbo.balanceRight, Orbo.modeChange, Orbo.write, Orbo.delay, Orbo.setLeftLegPos,
    Orbo.setRightLegPos, Orbo.setIsWalkMode]

/-- C1 (as stated) fails at degree 1073741824, whose double leaves the 32-bit
range: on a fresh controller `balanceLeft` writes the right-leg pre-load
-715827792, where `90 + (2*degree)/3` is 715827972, and commits the left leg
to 1073741914. -/
theorem balanceLeft_commands_fail_on_overflow :
    ((Orbo.Orbo 2 3 4 5).balanceLeft 1073741824).trace = (Orbo.Orbo 2 3 4 5).trace ++
      [Cmd.write Servo.ll 90, Cmd.write Servo.rl 90, Cmd.delay 200,
       Cmd.write Servo.rl (-715827792), Cmd.delay 25,
       Cmd.write Servo.ll 1073741914]
    ∧ (90 : Int) + Int.tdiv (2 * 1073741824) 3 = 715827972
    ∧ ((Orbo.Orbo 2 3 4 5).balanceLeft 1073741824).trace ≠ (Orbo.Orbo 2 3 4 5).trace ++
      [Cmd.write Servo.ll 90, Cmd.write Servo.rl 90, Cmd.delay 200,
       Cmd.write Servo.rl (90 + Int.tdiv (2 * 1073741824) 3), Cmd.delay 25,
       Cmd.write Servo.ll (90 + 1073741824)] := by
  decide

/-- C1 (amended): for every degree from -1073741824 to 1073741823 (those whose
double fits a 32-bit int) and every prior state, `balanceLeft(degree)` appends
exactly left-leg 90, right-leg 90, delay 200, right-leg `90 + (2*degree)/3`
(division truncating toward zero), delay 25, left-leg `90 + degree`; the last
left-leg command is `90 + degree`, unclamped, and for `degree = -2` the
pre-load is 89. -/
theorem balanceLeft_commands (degree : Int) (o : Orbo)
    (hlo : -1073741824 ≤ degree) (hhi : degree ≤ 1073741823) :
    (o.balanceLeft degree).trace = o.trace ++
      [Cmd.write Servo.ll 90, Cmd.write Servo.rl 90, Cmd.delay 200,
       Cmd.write Servo.rl (90 + Int.tdiv (2 * degree) 3), Cmd.delay 25,
       Cmd.write Servo.ll (90 + degree)]
    ∧ lastWrite Servo.ll (o.balanceLeft degree).trace = some (90 + degree)
    ∧ lastWrite Servo.rl (o.balanceLeft (-2)).trace = some 89 := by
  have hx := balance_angles_exact degree hlo hhi
  rw [balanceLeft_eq, balanceLeft_eq, hx.1, hx.2.1]
  refine ⟨rfl, ?_, ?_⟩
  · simp [lastWrite, List.foldl_append]
  · simp [lastWrite, List.foldl_append]
    decide

/-- Witness for C1 (amended): the largest degree of the range, 1073741823, on a
fresh controller. -/
theorem balanceLeft_commands_witness :
    (-1073741824 : Int) ≤ 1073741823 ∧ (1073741823 : Int) ≤ 1073741823
    ∧ lastWrite Servo.ll ((Orbo.Orbo 2 3 4 5).balanceLeft 1073741823).trace
        = some (90 + 1073741823) :=
  ⟨by decide, by decide,
   (balanceLeft_commands 1073741823 (Orbo.Orbo 2 3 4 5) (by decide) (by decide)).2.1⟩

/-- C2 (as stated) fails at degree -2147483648: its double wraps to 0 and
`90 - degree` leaves the 32-bit range, so on a fresh controller `balanceRight`
pre-loads the left leg to 90, where `90 - (2*degree)/3` is 1431655855, and
commits the right leg to -2147483558, where `90 - degree` is 2147483738. -/
theorem balanceRight_commands_fail_on_overflow :
    ((Orbo.Orbo 2 3 4 5).balanceRight (-2147483648)).trace = (Orbo.Orbo 2 3 4 5).trace ++
      [Cmd.write Servo.ll 90, Cmd.write Servo.rl 90, Cmd.delay 200,
       Cmd.write Servo.ll 90, Cmd.delay 25,
       Cmd.write Servo.rl (-2147483558)]
    ∧ (90 : Int) - Int.tdiv (2 * (-2147483648)) 3 = 1431655855
    ∧ (90 : Int) - (-2147483648) = 2147483738
    ∧ ((Orbo.Orbo 2 3 4 5).balanceRight (-2147483648)).trace ≠ (Orbo.Orbo 2 3 4 5).trace ++
      [Cmd.write Servo.ll 90, Cmd.write Servo.rl 90, Cmd.delay 200,
       Cmd.write Servo.ll (90 - Int.tdiv (2 * (-2147483648)) 3), Cmd.delay 25,
       Cmd.write Servo.rl (90 - (-2147483648))] := by
  decide

/-- C2 (amended): for every degree from -1073741824 to 1073741823 (those whose
double fits a 32-bit int) and every prior state, `balanceRight(degree)` appends
exactly left-leg 90, right-leg 90, delay 200, left-leg `90 - (2*degree)/3`
(division truncating toward zero, also for negative degree), delay 25,
right-leg `90 - degree`; the last right-leg command is `90 - degree`,
unclamped, and for `degree = -2` the pre-load is 91. -/
theorem balanceRight_commands (degree : Int) (o : Orbo)
    (hlo : -1073741824 ≤ degree) (hhi : degree ≤ 1073741823) :
    (o.balanceRight degree).trace = o.trace ++
      [Cmd.write Servo.ll 90, Cmd.write Servo.rl 90, Cmd.delay 200,
       Cmd.write Servo.ll (90 - Int.tdiv (2 * degree) 3), Cmd.delay 25,
       Cmd.write Servo.rl (90 - degree)]
    ∧ lastWrite Servo.rl (o.balanceRight degree).trace = some (90 - degree)
    ∧ lastWrite Servo.ll (o.balanceRight (-2)).trace = some 91 := by
  have hx := balance_angles_exact degree hlo hhi
  rw [balanceRight_eq, balanceRight_eq, hx.2.2.1, hx.2.2.2]
  refine ⟨rfl, ?_, ?_⟩
  · simp [lastWrite, List.foldl_append]
  · simp [lastWrite, List.foldl_append]
    decide

/-- Witness for C2 (amended): the smallest degree of the range, -1073741824, on
a fresh controller. -/
theorem balanceRight_commands_witness :
    (-1073741824 : Int) ≤ -1073741824 ∧ (-1073741824 : Int) ≤ 1073741823
    ∧ lastWrite Servo.rl ((Orbo.Orbo 2 3 4 5).balanceRight (-1073741824)).trace
        = some (90 - (-1073741824)) :=
  ⟨by decide, by decide,
   (balanceRight_commands (-1073741824) (Orbo.Orbo 2 3 4 5) (by decide) (by decide)).2.1⟩

/-! ## The loops of `returnHome` -/

/-- The commands of iterations `i, i+1, ..` of the first loop, `k` of them. -/
theorem returnHomeLoopLeft_eq (k : Nat) : ∀ (i : Int) (o : Orbo),
    (Orbo.abs (o._leftLegPos - 90) - i).toNat = k →
    o.returnHomeLoopLeft i = { o with trace := o.trace ++ (List.range k).flatMap (fun j =>
      [Cmd.write Servo.rl (o._rightLegPos - Int.tdiv ((i + (j : Int)) * 2) 3),
       Cmd.write Servo.ll (o._leftLegPos - (i + (j : Int))),
       Cmd.delay o._returnHomeDelay]) } := by
  induction k with
  | zero =>
    intro i o h
    have hc : ¬ i < Orbo.abs (o.getLeftLegPos - 90) := by
      simp only [Orbo.getLeftLegPos]; omega
    rw [Orbo.returnHomeLoopLeft, if_neg hc]
    simp
  | succ k ih =>
    intro i o h
    have hc : i < Orbo.abs (o.getLeftLegPos - 90) := by
      simp only [Orbo.getLeftLegPos]; omega
    rw [Orbo.returnHomeLoopLeft, if_pos hc]
    simp only []
    rw [ih]
    · simp [Orbo.write, Orbo.delay, Orbo.getLeftLegPos, Orbo.getRightLegPos,
        List.range_succ_eq_map, List.flatMap_map, add_assoc]
      refine congrArg _ (funext fun j => ?_)
      rw [add_comm (1 : Int)]
    · simp only [Orbo.write, Orbo.delay, Orbo.getLeftLegPos]; omega

/-- The commands of iterations `i, i+1, ..` of the second loop, `k` of them. -/
theorem returnHomeLoopRight_eq (k : Nat) : ∀ (i : Int) (o : Orbo),
    (Orbo.abs (o._rightLegPos - 90) - i).toNat = k →
    o.returnHomeLoopRight i = { o with trace := o.trace ++ (List.range k).flatMap (fun j =>
      [Cmd.write Servo.rl (o._rightLegPos + (i + (j : Int))),
       Cmd.write Servo.ll (o._leftLegPos + Int.tdiv ((i + (j : Int)) * 2) 3),
       Cmd.delay o._returnHomeDelay]) } := by
  induction k with
  | zero =>
    intro i o h
    have hc : ¬ i < Orbo.abs (o.getRightLegPos - 90) := by
      simp only [Orbo.getRightLegPos]; omega
    rw [Orbo.returnHomeLoopRight, if_neg hc]
    simp
  | succ k ih =>
    intro i o h
    have hc : i < Orbo.abs (o.getRightLegPos - 90) := by
      simp only [Orbo.getRightLegPos]; omega
    rw [Orbo.returnHomeLoopRight, if_pos hc]
    simp only []
    rw [ih]
    · simp [Orbo.write, Orbo.delay, Orbo.getLeftLegPos, Orbo.getRightLegPos,
        List.range_succ_eq_map, List.flatMap_map, add_assoc]
      refine congrArg _ (funext fun j => ?_)
      rw [add_comm (1 : Int)]
    · simp only [Orbo.write, Orbo.delay, Orbo.getRightLegPos]; omega

/-- The Arduino `abs` is the absolute value. -/
theorem abs_sub_zero_toNat (x : Int) : (Orbo.abs x - 0).toNat = x.natAbs := by
  unfold Orbo.abs
  split <;> omega

/-- The whole of `returnHome` in closed form: the fields it resets and the
commands it appends. -/
theorem returnHome_eq (o : Orbo) :
    o.returnHome = { o with
      _leftLegPos := 90
      _rightLegPos := 90
      trace := o.trace ++
        if o._leftLegPos > 90 then
          (List.range (o._leftLegPos - 90).natAbs).flatMap (stepLeftDisplaced o)
        else
          (List.range (o._rightLegPos - 90).natAbs).flatMap (stepRightDisplaced o) } := by
  unfold Orbo.returnHome
  by_cases h : o._leftLegPos > 90
  · simp only [Orbo.getLeftLegPos, h, if_true]
    rw [returnHomeLoopLeft_eq _ 0 o (abs_sub_zero_toNat _)]
    simp only [Orbo.setLeftLegPos, Orbo.setRightLegPos, zero_add]
    refine congrArg _ (congrArg _ (congrArg _ (funext fun j => ?_)))
    simp [stepLeftDisplaced, mul_comm]
  · simp only [Orbo.getLeftLegPos, h, if_false]
    rw [returnHomeLoopRight_eq _ 0 o (abs_sub_zero_toNat _)]
    simp only [Orbo.setLeftLegPos, Orbo.setRightLegPos, zero_add]
    refine congrArg _ (congrArg _ (congrArg _ (funext fun j => ?_)))
    simp [stepRightDisplaced, mul_comm]

/-! ## Cached leg angles against the leg servos -/

theorem lastWrite_write (s s1 : Servo) (a : Int) (t : List Cmd) :
    lastWrite s (t ++ [Cmd.write s1 a]) = if s1 = s then some a else lastWrite s t := by
  simp [lastWrite, List.foldl_append]

theorem lastWrite_delay (s : Servo) (ms : Int) (t : List Cmd) :
    lastWrite s (t ++ [Cmd.delay ms]) = lastWrite s t := by
  simp [lastWrite, List.foldl_append]

theorem runOps_snoc (ops : List Op) (op : Op) (o : Orbo) :
    runOps (ops ++ [op]) o = op.apply (runOps ops o) := by
  simp [runOps, List.foldl_append]

theorem lastLegOp_snoc (ops : List Op) (op : Op) :
    lastLegOp (ops ++ [op]) = if op.touchesLegs then some op else lastLegOp ops := by
  simp [lastLegOp, List.foldl_append]

/-- The constructor leaves the cache and the leg servos in agreement. -/
theorem legsInSync_constructed (a b c d : Int) : legsInSync (Orbo.Orbo a b c d) := by
  simp [legsInSync, Orbo.Orbo, Orbo.unconstructed, Orbo.attach, Orbo.write,
    Orbo.setIsWalkMode, Orbo.setLeftLegPos, Orbo.setRightLegPos, Orbo.setRotSpeed,
    Orbo.setReturnHomeDelay, lastWrite]

/-- From any state, `balanceRight` establishes the agreement. -/
theorem legsInSync_balanceRight (degree : Int) (o : Orbo) :
    legsInSync (o.balanceRight degree) := by
  simp [legsInSync, Orbo.balanceRight, Orbo.modeChange, Orbo.write, Orbo.delay,
    Orbo.setLeftLegPos, Orbo.setRightLegPos, Orbo.setIsWalkMode, lastWrite, List.foldl_append]

/-- A write to a foot servo keeps the agreement. -/
theorem legsInSync_write_foot (foot : Foot) (a : Int) (o : Orbo) (h : legsInSync o) :
    legsInSync (o.write foot.servo a) := by
  cases foot <;>
    simpa [legsInSync, Orbo.write, Foot.servo, lastWrite_write] using h

/-- The calls that touch no leg keep the agreement. -/
theorem legsInSync_apply_of_not_touchesLegs (op : Op) (o : Orbo)
    (hop : op.touchesLegs = false) (h : legsInSync o) : legsInSync (op.apply o) := by
  cases op with
  | rotateFootBool foot clockwise =>
    cases clockwise <;>
      simpa [Op.apply, Orbo.rotateFootBool] using legsInSync_write_foot foot _ o h
  | rotateFootChar foot dir =>
    simp only [Op.apply, Orbo.rotateFootChar]
    split_ifs <;> exact legsInSync_write_foot foot _ o h
  | stopFootServo foot => exact legsInSync_write_foot foot _ o h
  | stopFoot =>
    exact legsInSync_write_foot Foot.rf _ _ (legsInSync_write_foot Foot.lf _ o h)
  | _ => simp [Op.touchesLegs] at hop

/-- C3 (as stated) fails. After construction and `modeChange(false)` the cached
left angle is 90 while the left-leg servo was last sent 170; `drive`, a
`modeChange(true)` after `balanceRight(30)`, `returnHome` after
`balanceRight(30)` and `balanceLeft(30)` each leave cache and servo apart too. -/
theorem legsInSync_fails_after_modeChange :
    (runOps [Op.modeChange false] (Orbo.Orbo 2 3 4 5))._leftLegPos = 90
    ∧ lastWrite Servo.ll (runOps [Op.modeChange false] (Orbo.Orbo 2 3 4 5)).trace = some 170
    ∧ ¬ legsInSync (runOps [Op.modeChange false] (Orbo.Orbo 2 3 4 5))
    ∧ ¬ legsInSync (runOps [Op.drive 'F'] (Orbo.Orbo 2 3 4 5))
    ∧ ¬ legsInSync (runOps [Op.balanceRight 30, Op.modeChange true] (Orbo.Orbo 2 3 4 5))
    ∧ ¬ legsInSync (runOps [Op.balanceRight 30, Op.returnHome] (Orbo.Orbo 2 3 4 5))
    ∧ ¬ legsInSync (runOps [Op.balanceLeft 30] (Orbo.Orbo 2 3 4 5)) := by
  refine ⟨by decide, by decide, by decide, by decide, by decide, ?_, by decide⟩
  simp only [runOps, List.foldl, Op.apply, returnHome_eq]
  decide

/-- C3 (amended): in every state reached from construction by a finite sequence
of motion operations whose last leg-touching call (balanceLeft, balanceRight,
returnHome, modeChange, drive), if there is one, is a `balanceRight`, the cached
left and right leg angles equal the last angles written to the left-leg and
right-leg servos. -/
theorem legsInSync_of_lastLegOp_balanceRight (a b c d : Int) (ops : List Op)
    (h : ∀ op, lastLegOp ops = some op → ∃ degree, op = Op.balanceRight degree) :
    legsInSync (runOps ops (Orbo.Orbo a b c d)) := by
  induction ops using List.reverseRecOn with
  | nil => exact legsInSync_constructed a b c d
  | append_singleton ops op ih =>
    rw [runOps_snoc]
    rw [lastLegOp_snoc] at h
    by_cases hop : op.touchesLegs = true
    · obtain ⟨degree, rfl⟩ := h op (by simp [hop])
      exact legsInSync_balanceRight degree _
    · have hop1 : op.touchesLegs = false := by simpa using hop
      rw [hop1] at h
      exact legsInSync_apply_of_not_touchesLegs op _ hop1 (ih (by simpa using h))

/-- Witness for C3 (amended): a run through `balanceLeft`, `returnHome` and
`drive` that ends with `balanceRight(20)` and two foot commands. -/
theorem legsInSync_of_lastLegOp_balanceRight_witness :
    (∀ op, lastLegOp [Op.balanceLeft 30, Op.returnHome, Op.drive 'F', Op.balanceRight 20,
        Op.rotateFootChar Foot.lf 'C', Op.stopFoot] = some op →
      ∃ degree, op = Op.balanceRight degree)
    ∧ legsInSync (runOps [Op.balanceLeft 30, Op.returnHome, Op.drive 'F', Op.balanceRight 20,
        Op.rotateFootChar Foot.lf 'C', Op.stopFoot] (Orbo.Orbo 2 3 4 5)) :=
  ⟨fun _ hop => ⟨20, (Option.some.inj hop).symm⟩,
   legsInSync_of_lastLegOp_balanceRight 2 3 4 5 _
     (fun _ hop => ⟨20, (Option.some.inj hop).symm⟩)⟩

/-! ## `returnHome` -/

/-- C4: for every state, whatever the cached angles, `returnHome()` returns (the
embedding is a total function) with both cached leg angles equal to 90 and with
walkMode, rotationSpeed and returnHomeStepDelayMs unchanged. -/
theorem returnHome_resets_cache (o : Orbo) :
    o.returnHome._leftLegPos = 90
    ∧ o.returnHome._rightLegPos = 90
    ∧ o.returnHome._isWalkMode = o._isWalkMode
    ∧ o.returnHome._rotSpeed = o._rotSpeed
    ∧ o.returnHome._returnHomeDelay = o._returnHomeDelay := by
  simp [returnHome_eq]

/-- C6: from every state, `modeChange(true)` appends exactly left-leg 90,
right-leg 90, delay 200 and leaves walkMode true; `modeChange(false)` appends
exactly left-leg 170, right-leg 10, delay 200 and leaves walkMode false; a
repeated call in the mode already reached appends the same three commands,
delay included. -/
theorem modeChange_commands (o : Orbo) :
    (o.modeChange true).trace = o.trace ++
      [Cmd.write Servo.ll 90, Cmd.write Servo.rl 90, Cmd.delay 200]
    ∧ (o.modeChange true).getIsWalkMode = true
    ∧ (o.modeChange false).trace = o.trace ++
      [Cmd.write Servo.ll 170, Cmd.write Servo.rl 10, Cmd.delay 200]
    ∧ (o.modeChange false).getIsWalkMode = false
    ∧ ((o.modeChange true).modeChange true).trace = (o.modeChange true).trace ++
      [Cmd.write Servo.ll 90, Cmd.write Servo.rl 90, Cmd.delay 200]
    ∧ ((o.modeChange false).modeChange false).trace = (o.modeChange false).trace ++
      [Cmd.write Servo.ll 170, Cmd.write Servo.rl 10, Cmd.delay 200] := by
  simp [Orbo.modeChange, Orbo.write, Orbo.delay, Orbo.setIsWalkMode, Orbo.getIsWalkMode]

/-- C9: an unrecognized direction code degrades to neutral whatever the rotation
speed: for a character other than 'C' and 'A', `rotateFoot(foot, c)` appends
exactly one write of 90 to the given foot; for a character other than 'F', 'B',
'L' and 'R', `drive(c)` appends the mode change followed by left foot 90 and
right foot 90. -/
theorem unrecognized_code_is_neutral (c : Char) (foot : Servo) (o : Orbo) :
    (c ≠ 'C' → c ≠ 'A' →
      (o.rotateFootChar foot c).trace = o.trace ++ [Cmd.write foot 90])
    ∧ (c ≠ 'F' → c ≠ 'B' → c ≠ 'L' → c ≠ 'R' →
      (o.drive c).trace = o.trace ++
        [Cmd.write Servo.ll 170, Cmd.write Servo.rl 10, Cmd.delay 200,
         Cmd.write Servo.lf 90, Cmd.write Servo.rf 90]) := by
  refine ⟨fun h1 h2 => ?_, fun h1 h2 h3 h4 => ?_⟩
  · simp [Orbo.rotateFootChar, Orbo.write, h1, h2]
  · simp [Orbo.drive, Orbo.modeChange, Orbo.write, Orbo.delay, Orbo.setIsWalkMode,
      h1, h2, h3, h4]

/-- Witness for C9: the lowercase code 'c' on a fresh controller. -/
theorem unrecognized_code_is_neutral_witness :
    ('c' ≠ 'C' ∧ 'c' ≠ 'A' ∧
      ((Orbo.Orbo 2 3 4 5).rotateFootChar Servo.lf 'c').trace =
        (Orbo.Orbo 2 3 4 5).trace ++ [Cmd.write Servo.lf 90])
    ∧ ('c' ≠ 'F' ∧ 'c' ≠ 'B' ∧ 'c' ≠ 'L' ∧ 'c' ≠ 'R' ∧
      ((Orbo.Orbo 2 3 4 5).drive 'c').trace = (Orbo.Orbo 2 3 4 5).trace ++
        [Cmd.write Servo.ll 170, Cmd.write Servo.rl 10, Cmd.delay 200,
         Cmd.write Servo.lf 90, Cmd.write Servo.rf 90]) :=
  ⟨⟨by decide, by decide,
    (unrecognized_code_is_neutral 'c' Servo.lf (Orbo.Orbo 2 3 4 5)).1 (by decide) (by decide)⟩,
   ⟨by decide, by decide, by decide, by decide,
    (unrecognized_code_is_neutral 'c' Servo.lf (Orbo.Orbo 2 3 4 5)).2
      (by decide) (by decide) (by decide) (by decide)⟩⟩

/-- C10: for every four channel identifiers, construction attaches the four
servos, writes 90 to left leg, left foot, right leg and right foot, and yields
walkMode = true, rotationSpeed = 25, both leg angles = 90 and
returnHomeStepDelayMs = 3. -/
theorem constructor_state (leftLegPin leftFootPin rightLegPin rightFootPin : Int) :
    Orbo.Orbo leftLegPin leftFootPin rightLegPin rightFootPin =
      { _isWalkMode := true
        _rotSpeed := 25
        _leftLegPos := 90
        _rightLegPos := 90
        _returnHomeDelay := 3
        trace :=
          [Cmd.attach Servo.ll leftLegPin (some (120, 2400)),
           Cmd.attach Servo.lf leftFootPin none,
           Cmd.attach Servo.rl rightLegPin (some (120, 2400)),
           Cmd.attach Servo.rf rightFootPin none,
           Cmd.write Servo.ll 90, Cmd.write Servo.lf 90,
           Cmd.write Servo.rl 90, Cmd.write Servo.rf 90] } := by
  rfl

/-! ## `returnHome` at and away from neutral -/

theorem emitted_of_trace_eq (o o1 : Orbo) (e : List Cmd) (h : o1.trace = o.trace ++ e) :
    emitted o o1 = e := by
  simp [emitted, h]

/-- What `returnHome` appends, in terms of `emitted`. -/
theorem emitted_returnHome (o : Orbo) :
    emitted o o.returnHome =
      if o._leftLegPos > 90 then
        (List.range (o._leftLegPos - 90).natAbs).flatMap (stepLeftDisplaced o)
      else
        (List.range (o._rightLegPos - 90).natAbs).flatMap (stepRightDisplaced o) := by
  apply emitted_of_trace_eq
  rw [returnHome_eq]

theorem delayCount_steps (n : Nat) (f : Nat → List Cmd) (hf : ∀ i, delayCount (f i) = 1) :
    delayCount ((List.range n).flatMap f) = n := by
  induction n with
  | zero => simp [delayCount]
  | succ n ih =>
    rw [List.range_succ, List.flatMap_append, List.flatMap_singleton]
    unfold delayCount at *
    rw [List.countP_append, ih, hf]

/-- The step count of `returnHome` is read off the branch taken. -/
theorem returnHomeSteps_eq (o : Orbo) :
    returnHomeSteps o =
      if o._leftLegPos > 90 then (o._leftLegPos - 90).natAbs
      else (o._rightLegPos - 90).natAbs := by
  unfold returnHomeSteps
  rw [emitted_returnHome]
  split
  · exact delayCount_steps _ _ (fun i => by simp [delayCount, stepLeftDisplaced])
  · exact delayCount_steps _ _ (fun i => by simp [delayCount, stepRightDisplaced])

/-- C11: on every state whose cached leg angles are both 90, `returnHome()` is
the identity: it appends no servo write and no delay and changes no field;
so a second `returnHome()` directly after any `returnHome()` changes nothing
and appends nothing. -/
theorem returnHome_identity_at_neutral (o : Orbo) :
    (o._leftLegPos = 90 → o._rightLegPos = 90 →
      o.returnHome = o ∧ emitted o o.returnHome = [])
    ∧ o.returnHome.returnHome = o.returnHome
    ∧ emitted o.returnHome o.returnHome.returnHome = [] := by
  have key : ∀ p : Orbo, p._leftLegPos = 90 → p._rightLegPos = 90 →
      p.returnHome = p ∧ emitted p p.returnHome = [] := by
    intro p hl hr
    have h1 : p.returnHome = p := by
      rw [returnHome_eq]
      cases p
      simp_all
    exact ⟨h1, by rw [h1]; simp [emitted]⟩
  have h2 := key o.returnHome (by simp [returnHome_eq]) (by simp [returnHome_eq])
  exact ⟨key o, h2.1, h2.2⟩

/-- Witness for C11: the freshly constructed controller is at neutral. -/
theorem returnHome_identity_at_neutral_witness :
    (Orbo.Orbo 2 3 4 5)._leftLegPos = 90 ∧ (Orbo.Orbo 2 3 4 5)._rightLegPos = 90
    ∧ (Orbo.Orbo 2 3 4 5).returnHome = Orbo.Orbo 2 3 4 5
    ∧ emitted (Orbo.Orbo 2 3 4 5) (Orbo.Orbo 2 3 4 5).returnHome = [] :=
  ⟨by decide, by decide,
   (returnHome_identity_at_neutral (Orbo.Orbo 2 3 4 5)).1 (by decide) (by decide)⟩

/-- C12 (as stated) fails. On a fresh controller, after `balanceRight(-30)` the
cached angles are 110 and 120 and `returnHome()` performs 20 steps, not 30;
after `balanceLeft(-30)` they are 70 and 90 and it performs 0 steps, not 20;
after `balanceRight(30)` then `balanceLeft(3)` they are 92 and 60 and it
performs 2 steps, not 30; after `balanceRight(1073741824)`, whose doubled
degree wraps around, they are 715827972 and -1073741734 and it performs
715827882 steps, not 1073741824. -/
theorem returnHomeSteps_not_max :
    (returnHomeSteps ((Orbo.Orbo 2 3 4 5).balanceRight (-30)) = 20
      ∧ max (((Orbo.Orbo 2 3 4 5).balanceRight (-30))._leftLegPos - 90).natAbs
          (((Orbo.Orbo 2 3 4 5).balanceRight (-30))._rightLegPos - 90).natAbs = 30)
    ∧ (returnHomeSteps ((Orbo.Orbo 2 3 4 5).balanceLeft (-30)) = 0
      ∧ max (((Orbo.Orbo 2 3 4 5).balanceLeft (-30))._leftLegPos - 90).natAbs
          (((Orbo.Orbo 2 3 4 5).balanceLeft (-30))._rightLegPos - 90).natAbs = 20)
    ∧ (returnHomeSteps (((Orbo.Orbo 2 3 4 5).balanceRight 30).balanceLeft 3) = 2
      ∧ max ((((Orbo.Orbo 2 3 4 5).balanceRight 30).balanceLeft 3)._leftLegPos - 90).natAbs
          ((((Orbo.Orbo 2 3 4 5).balanceRight 30).balanceLeft 3)._rightLegPos - 90).natAbs
          = 30)
    ∧ (returnHomeSteps ((Orbo.Orbo 2 3 4 5).balanceRight 1073741824) = 715827882
      ∧ max (((Orbo.Orbo 2 3 4 5).balanceRight 1073741824)._leftLegPos - 90).natAbs
          (((Orbo.Orbo 2 3 4 5).balanceRight 1073741824)._rightLegPos - 90).natAbs
          = 1073741824) := by
  simp only [returnHomeSteps_eq]
  decide

/-- The cached angles `balanceRight` leaves. -/
theorem balanceRight_cache (degree : Int) (o : Orbo)
    (hlo : -1073741824 ≤ degree) (hhi : degree ≤ 1073741823) :
    (o.balanceRight degree)._leftLegPos = 90 - Int.tdiv (2 * degree) 3
    ∧ (o.balanceRight degree)._rightLegPos = 90 - degree := by
  have hx := balance_angles_exact degree hlo hhi
  rw [balanceRight_eq, hx.2.2.1, hx.2.2.2]
  exact ⟨rfl, rfl⟩

/-- The cached angles `balanceLeft` leaves. -/
theorem balanceLeft_cache (degree : Int) (o : Orbo)
    (hlo : -1073741824 ≤ degree) (hhi : degree ≤ 1073741823) :
    (o.balanceLeft degree)._leftLegPos = 90 + Int.tdiv (2 * degree) 3
    ∧ (o.balanceLeft degree)._rightLegPos = o._rightLegPos := by
  have hx := balance_angles_exact degree hlo hhi
  rw [balanceLeft_eq, hx.1]
  exact ⟨rfl, rfl⟩

/-- C12 (amended): when `returnHome()` is called directly after
`balanceRight(degree)` with 0 <= degree <= 1073741823 (a degree whose double
fits a 32-bit int) made in any state, or directly after `balanceLeft(degree)`
with such a degree made in a state whose cached right leg angle is 90, the
number of steps it performs equals the larger of |leftLegAngle - 90| and
|rightLegAngle - 90| of the cached angles on entry. -/
theorem returnHomeSteps_eq_max_after_balance (o : Orbo) (degree : Int) (hd : 0 ≤ degree)
    (hhi : degree ≤ 1073741823) :
    returnHomeSteps (o.balanceRight degree) =
      max ((o.balanceRight degree)._leftLegPos - 90).natAbs
        ((o.balanceRight degree)._rightLegPos - 90).natAbs
    ∧ (o._rightLegPos = 90 →
      returnHomeSteps (o.balanceLeft degree) =
        max ((o.balanceLeft degree)._leftLegPos - 90).natAbs
          ((o.balanceLeft degree)._rightLegPos - 90).natAbs) := by
  have hq : Int.tdiv (2 * degree) 3 = 2 * degree / 3 :=
    Int.tdiv_eq_ediv (by omega) (by omega)
  refine ⟨?_, fun hr => ?_⟩
  · have hc := balanceRight_cache degree o (by omega) hhi
    rw [returnHomeSteps_eq, hc.1, hc.2, hq]
    split <;> omega
  · have hc := balanceLeft_cache degree o (by omega) hhi
    rw [returnHomeSteps_eq, hc.1, hc.2, hq, hr]
    split <;> omega

/-- Witness for C12 (amended): degree 30 on a fresh controller, whose cached
right leg angle is 90. -/
theorem returnHomeSteps_eq_max_after_balance_witness :
    (0 : Int) ≤ 30 ∧ (30 : Int) ≤ 1073741823 ∧ (Orbo.Orbo 2 3 4 5)._rightLegPos = 90
    ∧ returnHomeSteps ((Orbo.Orbo 2 3 4 5).balanceRight 30) = 30
    ∧ returnHomeSteps ((Orbo.Orbo 2 3 4 5).balanceLeft 30) = 20 :=
  ⟨by decide, by decide, by decide,
   (returnHomeSteps_eq_max_after_balance (Orbo.Orbo 2 3 4 5) 30 (by decide) (by decide)).1,
   (returnHomeSteps_eq_max_after_balance (Orbo.Orbo 2 3 4 5) 30 (by decide) (by decide)).2
     (by decide)⟩

/-- C13 at its failing input. On a fresh controller `balanceLeft(5)` last sends
the right leg to 93; `returnHome()` then writes 90, 90, 89 to the right leg, so
its third write is further from 90 than the one before. After
`balanceRight(5)` both legs only move toward 90, and so does the left leg after
`balanceLeft(5)`. -/
theorem returnHome_after_balanceLeft_leaves_neutral :
    lastWrite Servo.rl ((Orbo.Orbo 2 3 4 5).balanceLeft 5).trace = some 93
    ∧ writesTo Servo.rl (emitted ((Orbo.Orbo 2 3 4 5).balanceLeft 5)
        ((Orbo.Orbo 2 3 4 5).balanceLeft 5).returnHome) = [90, 90, 89]
    ∧ returnHomeTowardNeutral Servo.rl ((Orbo.Orbo 2 3 4 5).balanceLeft 5) = false
    ∧ returnHomeTowardNeutral Servo.ll ((Orbo.Orbo 2 3 4 5).balanceLeft 5) = true
    ∧ returnHomeTowardNeutral Servo.rl ((Orbo.Orbo 2 3 4 5).balanceRight 5) = true
    ∧ returnHomeTowardNeutral Servo.ll ((Orbo.Orbo 2 3 4 5).balanceRight 5) = true := by
  simp only [returnHomeTowardNeutral, emitted_returnHome]
  decide

/-! ## Frame conditions -/

/-- C14: from every state, `drive(dir)` appends exactly the commands of
`modeChange(false)` (left-leg 170, right-leg 10, delay 200) followed by one
left-foot write and one right-foot write, and nothing else; it ends with
walkMode false and the other four fields unchanged. -/
theorem drive_frame (dir : Char) (o : Orbo) :
    ∃ leftFoot rightFoot : Int,
      o.drive dir = { o with
        _isWalkMode := false
        trace := (o.modeChange false).trace ++
          [Cmd.write Servo.lf leftFoot, Cmd.write Servo.rf rightFoot] }
      ∧ (o.modeChange false).trace = o.trace ++
          [Cmd.write Servo.ll 170, Cmd.write Servo.rl 10, Cmd.delay 200]
      ∧ ((o.modeChange false).drive dir).trace = (o.modeChange false).trace ++
          [Cmd.write Servo.ll 170, Cmd.write Servo.rl 10, Cmd.delay 200,
           Cmd.write Servo.lf leftFoot, Cmd.write Servo.rf rightFoot] := by
  unfold Orbo.drive
  split_ifs
  · exact ⟨90 + o._rotSpeed, 90 - o._rotSpeed, by
      simp [Orbo.modeChange, Orbo.write, Orbo.delay, Orbo.setIsWalkMode, Orbo.getRotSpeed]⟩
  · exact ⟨90 - o._rotSpeed, 90 + o._rotSpeed, by
      simp [Orbo.modeChange, Orbo.write, Orbo.delay, Orbo.setIsWalkMode, Orbo.getRotSpeed]⟩
  · exact ⟨90, 90 - o._rotSpeed, by
      simp [Orbo.modeChange, Orbo.write, Orbo.delay, Orbo.setIsWalkMode, Orbo.getRotSpeed]⟩
  · exact ⟨90 + o._rotSpeed, 90, by
      simp [Orbo.modeChange, Orbo.write, Orbo.delay, Orbo.setIsWalkMode, Orbo.getRotSpeed]⟩
  · exact ⟨90, 90, by
      simp [Orbo.modeChange, Orbo.write, Orbo.delay, Orbo.setIsWalkMode, Orbo.getRotSpeed]⟩

/-- C15 (as stated) fails at degree 1073741824, whose double leaves the 32-bit
range: on a fresh controller `balanceLeft` caches the left angle -715827792,
where `90 + (2*degree)/3` is 715827972. -/
theorem balanceLeft_cache_fail_on_overflow :
    ((Orbo.Orbo 2 3 4 5).balanceLeft 1073741824)._leftLegPos = -715827792
    ∧ (90 : Int) + Int.tdiv (2 * 1073741824) 3 = 715827972
    ∧ ((Orbo.Orbo 2 3 4 5).balanceLeft 1073741824)._leftLegPos
        ≠ 90 + Int.tdiv (2 * 1073741824) 3 := by
  decide

/-- C15 (amended): for every degree from -1073741824 to 1073741823 (those whose
double fits a 32-bit int) and every prior state, `balanceLeft(degree)` leaves
the cached left angle at `90 + (2*degree)/3` (truncating) while the left-leg
servo was last sent `90 + degree`; for every degree at all, the cached right
angle, rotation speed and step delay are unchanged, walkMode is true, and the
value stored by the first assignment has no effect on the result. -/
theorem balanceLeft_cache_frame (degree : Int) (o : Orbo) :
    (-1073741824 ≤ degree → degree ≤ 1073741823 →
      (o.balanceLeft degree)._leftLegPos = 90 + Int.tdiv (2 * degree) 3
      ∧ lastWrite Servo.ll (o.balanceLeft degree).trace = some (90 + degree))
    ∧ (o.balanceLeft degree)._rightLegPos = o._rightLegPos
    ∧ (o.balanceLeft degree)._rotSpeed = o._rotSpeed
    ∧ (o.balanceLeft degree)._returnHomeDelay = o._returnHomeDelay
    ∧ (o.balanceLeft degree)._isWalkMode = true
    ∧ (∀ x : Int, o.balanceLeft degree =
        (((((o.setLeftLegPos x).setLeftLegPos
          (wrapInt (90 + Int.tdiv (wrapInt (2 * degree)) 3))).modeChange true).write
            Servo.rl (wrapInt (90 + Int.tdiv (wrapInt (2 * degree)) 3))).delay 25).write
              Servo.ll (wrapInt (90 + degree)))
    ∧ (o.balanceLeft 30)._leftLegPos = 110
    ∧ lastWrite Servo.ll (o.balanceLeft 30).trace = some 120 := by
  refine ⟨fun hlo hhi => ?_, ?_⟩
  · have hx := balance_angles_exact degree hlo hhi
    rw [balanceLeft_eq, hx.1, hx.2.1]
    exact ⟨rfl, by simp [lastWrite, List.foldl_append]⟩
  · simp [Orbo.balanceLeft, Orbo.modeChange, Orbo.write, Orbo.delay, Orbo.setLeftLegPos,
      Orbo.setIsWalkMode, lastWrite, List.foldl_append]
    decide

/-- Witness for C15 (amended): the largest degree of the range on a fresh
controller. -/
theorem balanceLeft_cache_frame_witness :
    (-1073741824 : Int) ≤ 1073741823 ∧ (1073741823 : Int) ≤ 1073741823
    ∧ ((Orbo.Orbo 2 3 4 5).balanceLeft 1073741823)._leftLegPos
        = 90 + Int.tdiv (2 * 1073741823) 3
    ∧ lastWrite Servo.ll ((Orbo.Orbo 2 3 4 5).balanceLeft 1073741823).trace
        = some (90 + 1073741823) :=
  ⟨by decide, by decide,
   (balanceLeft_cache_frame 1073741823 (Orbo.Orbo 2 3 4 5)).1 (by decide) (by decide)⟩

/-- C16: both `rotateFoot` overloads and both `stopFoot` overloads change no
field and append only foot writes, no delay and no leg write: `rotateFoot` and
`stopFoot(foot)` append exactly one write to the given foot, and `stopFoot()`
appends exactly left-foot 90, right-foot 90. -/
theorem foot_commands_frame (foot : Foot) (clockwise : Bool) (dir : Char) (o : Orbo) :
    (∃ a, o.rotateFootBool foot.servo clockwise =
        { o with trace := o.trace ++ [Cmd.write foot.servo a] })
    ∧ (∃ a, o.rotateFootChar foot.servo dir =
        { o with trace := o.trace ++ [Cmd.write foot.servo a] })
    ∧ o.stopFootServo foot.servo = { o with trace := o.trace ++ [Cmd.write foot.servo 90] }
    ∧ o.stopFoot =
        { o with trace := o.trace ++ [Cmd.write Servo.lf 90, Cmd.write Servo.rf 90] }
    ∧ foot.servo ≠ Servo.ll ∧ foot.servo ≠ Servo.rl := by
  refine ⟨?_, ?_, ?_, ?_, ?_, ?_⟩
  · cases clockwise
    · exact ⟨90 + o._rotSpeed, by simp [Orbo.rotateFootBool, Orbo.write, Orbo.getRotSpeed]⟩
    · exact ⟨90 - o._rotSpeed, by simp [Orbo.rotateFootBool, Orbo.write, Orbo.getRotSpeed]⟩
  · unfold Orbo.rotateFootChar
    split_ifs
    · exact ⟨90 - o._rotSpeed, by simp [Orbo.write, Orbo.getRotSpeed]⟩
    · exact ⟨90 + o._rotSpeed, by simp [Orbo.write, Orbo.getRotSpeed]⟩
    · exact ⟨90, by simp [Orbo.write]⟩
  · simp [Orbo.stopFootServo, Orbo.write]
  · simp [Orbo.stopFoot, Orbo.write]
  · cases foot <;> simp [Foot.servo]
  · cases foot <;> simp [Foot.servo]

/-- C17 (as stated) fails at degree -2147483648: its double wraps to 0 and
`90 - degree` leaves the 32-bit range, so on a fresh controller `balanceRight`
caches (90, -2147483558), where `90 - (2*degree)/3` is 1431655855 and
`90 - degree` is 2147483738. -/
theorem balanceRight_cache_fail_on_overflow :
    ((Orbo.Orbo 2 3 4 5).balanceRight (-2147483648))._leftLegPos = 90
    ∧ ((Orbo.Orbo 2 3 4 5).balanceRight (-2147483648))._rightLegPos = -2147483558
    ∧ (90 : Int) - Int.tdiv (2 * (-2147483648)) 3 = 1431655855
    ∧ (90 : Int) - (-2147483648) = 2147483738
    ∧ ((Orbo.Orbo 2 3 4 5).balanceRight (-2147483648))._leftLegPos
        ≠ 90 - Int.tdiv (2 * (-2147483648)) 3
    ∧ ((Orbo.Orbo 2 3 4 5).balanceRight (-2147483648))._rightLegPos
        ≠ 90 - (-2147483648) := by
  decide

/-- C17 (amended): for every degree and prior state, directly after
`balanceRight(degree)` the cached left angle equals the last angle written to
the left-leg servo and the cached right angle equals the last angle written to
the right-leg servo; for every degree from -1073741824 to 1073741823 (those
whose double fits a 32-bit int) these two values are `90 - (2*degree)/3` and
`90 - degree`; `balanceLeft(30)` on a fresh controller does not leave cache
and servos in agreement. -/
theorem balanceRight_legs_in_sync (degree : Int) (o : Orbo) :
    (-1073741824 ≤ degree → degree ≤ 1073741823 →
      (o.balanceRight degree)._leftLegPos = 90 - Int.tdiv (2 * degree) 3
      ∧ lastWrite Servo.ll (o.balanceRight degree).trace
          = some (90 - Int.tdiv (2 * degree) 3)
      ∧ (o.balanceRight degree)._rightLegPos = 90 - degree
      ∧ lastWrite Servo.rl (o.balanceRight degree).trace = some (90 - degree))
    ∧ legsInSync (o.balanceRight degree)
    ∧ ¬ legsInSync ((Orbo.Orbo 2 3 4 5).balanceLeft 30) := by
  refine ⟨fun hlo hhi => ?_, legsInSync_balanceRight degree o, by decide⟩
  have hx := balance_angles_exact degree hlo hhi
  rw [balanceRight_eq, hx.2.2.1, hx.2.2.2]
  exact ⟨rfl, by simp [lastWrite, List.foldl_append], rfl,
    by simp [lastWrite, List.foldl_append]⟩

/-- Witness for C17 (amended): the smallest degree of the range on a fresh
controller. -/
theorem balanceRight_legs_in_sync_witness :
    (-1073741824 : Int) ≤ -1073741824 ∧ (-1073741824 : Int) ≤ 1073741823
    ∧ ((Orbo.Orbo 2 3 4 5).balanceRight (-1073741824))._leftLegPos
        = 90 - Int.tdiv (2 * (-1073741824)) 3
    ∧ ((Orbo.Orbo 2 3 4 5).balanceRight (-1073741824))._rightLegPos
        = 90 - (-1073741824) :=
  ⟨by decide, by decide,
   ((balanceRight_legs_in_sync (-1073741824) (Orbo.Orbo 2 3 4 5)).1
      (by decide) (by decide)).1,
   ((balanceRight_legs_in_sync (-1073741824) (Orbo.Orbo 2 3 4 5)).1
      (by decide) (by decide)).2.2.1⟩

/-! ## Where `returnHome` stops, and the range of the leg commands -/

theorem returnHome_trace (o : Orbo) :
    o.returnHome.trace = o.trace ++ emitted o o.returnHome := by
  rw [emitted_returnHome, returnHome_eq]

theorem balanceLeft_trace (degree : Int) (o : Orbo)
    (hlo : -1073741824 ≤ degree) (hhi : degree ≤ 1073741823) :
    (o.balanceLeft degree).trace = o.trace ++
      [Cmd.write Servo.ll 90, Cmd.write Servo.rl 90, Cmd.delay 200,
       Cmd.write Servo.rl (90 + Int.tdiv (2 * degree) 3), Cmd.delay 25,
       Cmd.write Servo.ll (90 + degree)] := by
  have hx := balance_angles_exact degree hlo hhi
  rw [balanceLeft_eq, hx.1, hx.2.1]

theorem balanceRight_trace (degree : Int) (o : Orbo)
    (hlo : -1073741824 ≤ degree) (hhi : degree ≤ 1073741823) :
    (o.balanceRight degree).trace = o.trace ++
      [Cmd.write Servo.ll 90, Cmd.write Servo.rl 90, Cmd.delay 200,
       Cmd.write Servo.ll (90 - Int.tdiv (2 * degree) 3), Cmd.delay 25,
       Cmd.write Servo.rl (90 - degree)] := by
  have hx := balance_angles_exact degree hlo hhi
  rw [balanceRight_eq, hx.2.2.1, hx.2.2.2]

/-- The angles `returnHome` writes stay in [0, 180] when the cached angles leave
room for the loop that is taken. -/
theorem returnHome_writes_in_range (o : Orbo) (s : Servo) (a : Int)
    (h1 : o._leftLegPos > 90 →
      o._leftLegPos ≤ 180 ∧ o._rightLegPos ≤ 180 ∧ 2 * (o._leftLegPos - 90) ≤ 3 * o._rightLegPos)
    (h2 : o._leftLegPos ≤ 90 → 0 ≤ o._leftLegPos ∧ 0 ≤ o._rightLegPos ∧ o._rightLegPos ≤ 90)
    (h : Cmd.write s a ∈ emitted o o.returnHome) : 0 ≤ a ∧ a ≤ 180 := by
  rw [emitted_returnHome] at h
  split at h
  · simp only [List.mem_flatMap, List.mem_range, stepLeftDisplaced] at h
    obtain ⟨i, hi, hmem⟩ := h
    have hq : Int.tdiv (2 * (i : Int)) 3 = 2 * (i : Int) / 3 :=
      Int.tdiv_eq_ediv (by omega) (by omega)
    rw [hq] at hmem
    simp at hmem
    omega
  · simp only [List.mem_flatMap, List.mem_range, stepRightDisplaced] at h
    obtain ⟨i, hi, hmem⟩ := h
    have hq : Int.tdiv (2 * (i : Int)) 3 = 2 * (i : Int) / 3 :=
      Int.tdiv_eq_ediv (by omega) (by omega)
    rw [hq] at hmem
    simp at hmem
    omega

/-- C19: from every state whose cached leg angles are both 90 and for every
degree from 0 to 90, every angle written to a leg servo by `balanceLeft(degree)`
followed by `returnHome()`, and by `balanceRight(degree)` followed by
`returnHome()`, lies between 0 and 180. -/
theorem balance_returnHome_leg_writes_in_range (o : Orbo) (degree : Int)
    (_hl : o._leftLegPos = 90) (hr : o._rightLegPos = 90)
    (h0 : 0 ≤ degree) (h90 : degree ≤ 90) :
    (∀ s a, (s = Servo.ll ∨ s = Servo.rl) →
      Cmd.write s a ∈ emitted o (o.balanceLeft degree).returnHome → 0 ≤ a ∧ a ≤ 180)
    ∧ (∀ s a, (s = Servo.ll ∨ s = Servo.rl) →
      Cmd.write s a ∈ emitted o (o.balanceRight degree).returnHome → 0 ≤ a ∧ a ≤ 180) := by
  have hq : Int.tdiv (2 * degree) 3 = 2 * degree / 3 :=
    Int.tdiv_eq_ediv (by omega) (by omega)
  have hlo : -1073741824 ≤ degree := by omega
  have hhi : degree ≤ 1073741823 := by omega
  have hcl := balanceLeft_cache degree o hlo hhi
  have hcr := balanceRight_cache degree o hlo hhi
  constructor
  · intro s a _ hmem
    rw [emitted_of_trace_eq o _ _ (by
      rw [returnHome_trace, balanceLeft_trace degree o hlo hhi, List.append_assoc])] at hmem
    rw [List.mem_append] at hmem
    rcases hmem with hmem | hmem
    · rw [hq] at hmem
      simp at hmem
      omega
    · refine returnHome_writes_in_range _ s a ?_ ?_ hmem <;>
        rw [hcl.1, hcl.2, hq, hr] <;>
        intro _ <;> omega
  · intro s a _ hmem
    rw [emitted_of_trace_eq o _ _ (by
      rw [returnHome_trace, balanceRight_trace degree o hlo hhi, List.append_assoc])] at hmem
    rw [List.mem_append] at hmem
    rcases hmem with hmem | hmem
    · rw [hq] at hmem
      simp at hmem
      omega
    · refine returnHome_writes_in_range _ s a ?_ ?_ hmem <;>
        rw [hcr.1, hcr.2, hq] <;>
        intro _ <;> omega

/-- Witness for C19: degree 90 on a fresh controller; the commit write of
`balanceLeft(90)` is 180 and that of `balanceRight(90)` is 0. -/
theorem balance_returnHome_leg_writes_in_range_witness :
    (Orbo.Orbo 2 3 4 5)._leftLegPos = 90 ∧ (Orbo.Orbo 2 3 4 5)._rightLegPos = 90
    ∧ (0 : Int) ≤ 90 ∧ (90 : Int) ≤ 90
    ∧ (∀ s a, (s = Servo.ll ∨ s = Servo.rl) →
      Cmd.write s a ∈ emitted (Orbo.Orbo 2 3 4 5) ((Orbo.Orbo 2 3 4 5).balanceLeft 90).returnHome →
        0 ≤ a ∧ a ≤ 180)
    ∧ (∀ s a, (s = Servo.ll ∨ s = Servo.rl) →
      Cmd.write s a ∈ emitted (Orbo.Orbo 2 3 4 5) ((Orbo.Orbo 2 3 4 5).balanceRight 90).returnHome →
        0 ≤ a ∧ a ≤ 180) :=
  ⟨by decide, by decide, by decide, by decide,
   balance_returnHome_leg_writes_in_range (Orbo.Orbo 2 3 4 5) 90
     (by decide) (by decide) (by decide) (by decide)⟩

/-! ## Which legs `returnHome` brings toward neutral -/

theorem towardNeutral_cons_map_range (n : Nat) : ∀ (prev : Int) (f : Nat → Int),
    (0 < n → (f 0 - 90).natAbs ≤ (prev - 90).natAbs) →
    (∀ i, i + 1 < n → (f (i + 1) - 90).natAbs ≤ (f i - 90).natAbs) →
    towardNeutral (prev :: (List.range n).map f) = true := by
  induction n with
  | zero => intro prev f _ _; simp [towardNeutral]
  | succ n ih =>
    intro prev f h0 hstep
    rw [List.range_succ_eq_map, List.map_cons, List.map_map]
    simp only [towardNeutral, Bool.and_eq_true, decide_eq_true_eq]
    refine ⟨h0 (by omega), ih (f 0) (f ∘ Nat.succ) (fun hn => hstep 0 (by omega))
      (fun i hi => hstep (i + 1) (by omega))⟩

theorem writesTo_steps (s : Servo) (n : Nat) (step : Nat → List Cmd) (g : Nat → Int)
    (h : ∀ i, writesTo s (step i) = [g i]) :
    writesTo s ((List.range n).flatMap step) = (List.range n).map g := by
  induction n with
  | zero => simp [writesTo]
  | succ n ih =>
    rw [List.range_succ, List.flatMap_append, List.flatMap_singleton, List.map_append]
    unfold writesTo at *
    rw [List.filterMap_append, ih, h]
    simp

/-- After `balanceRight(degree)` with 0 < degree <= 1073741823, from any state,
`returnHome()` never commands either leg further from 90 than it was. -/
theorem returnHomeTowardNeutral_after_balanceRight (o : Orbo) (degree : Int)
    (hd : 0 < degree) (hhi : degree ≤ 1073741823) :
    returnHomeTowardNeutral Servo.ll (o.balanceRight degree) = true
    ∧ returnHomeTowardNeutral Servo.rl (o.balanceRight degree) = true := by
  have hq : Int.tdiv (2 * degree) 3 = 2 * degree / 3 :=
    Int.tdiv_eq_ediv (by omega) (by omega)
  have hsync := legsInSync_balanceRight degree o
  have hc := balanceRight_cache degree o (by omega) hhi
  have hnl : ¬ (o.balanceRight degree)._leftLegPos > 90 := by rw [hc.1, hq]; omega
  unfold returnHomeTowardNeutral
  rw [emitted_returnHome, if_neg hnl, hsync.1, hsync.2]
  constructor
  · rw [writesTo_steps Servo.ll _ _
      (fun i => (o.balanceRight degree)._leftLegPos + Int.tdiv (2 * (i : Int)) 3)
      (fun i => by simp [writesTo, stepRightDisplaced])]
    apply towardNeutral_cons_map_range
    · intro _; simp
    · intro i hi
      have e1 : Int.tdiv (2 * ((i + 1 : Nat) : Int)) 3 = 2 * ((i + 1 : Nat) : Int) / 3 :=
        Int.tdiv_eq_ediv (by omega) (by omega)
      have e2 : Int.tdiv (2 * (i : Int)) 3 = 2 * (i : Int) / 3 :=
        Int.tdiv_eq_ediv (by omega) (by omega)
      simp only [hc.1, hc.2, hq, e1, e2] at hi ⊢
      push_cast at hi ⊢
      omega
  · rw [writesTo_steps Servo.rl _ _
      (fun i => (o.balanceRight degree)._rightLegPos + (i : Int))
      (fun i => by simp [writesTo, stepRightDisplaced])]
    apply towardNeutral_cons_map_range
    · intro _; simp
    · intro i hi
      simp only [hc.2] at hi ⊢
      push_cast at hi ⊢
      omega
